import Mathlib

/-!
# Verification of the `passgen` deterministic password generator

Shallow embedding of the core logic of the repository:

* `src/js/generator.js`  — `PasswordGenerator` (site/counter normalization,
  parameter clamping, byte→password mapping, diversity policy, recipe ids);
* `src/unnamed/part_003` — `CryptoHelper` (in particular the custom Balloon
  hash construction, lines 91-157);
* `src/js/storage.js`    — registry versioning (`recordRecipeUsage`,
  lines 157-211) and the additive snapshot merge (`importRegistrySnapshot`,
  lines 290-383);
* `src/js/sync.js`       — quick-transfer payload encode/decode/decrypt
  (lines 388-471), the base32 transport encoding (lines 691-744), and the
  paired-transfer import checks (`handleImport` lines 1110-1206,
  `decryptSnapshot` lines 1357-1371).

External platform primitives (WebCrypto digests and AEAD, `URL` parsing,
`JSON`, base64 via `btoa`/`atob`, UTF-8 codecs) are modelled as explicit
function parameters; the hypotheses placed on them in the theorems state
exactly the interface behaviour the code relies on (e.g. AEAD round-trip and
authentication).  JavaScript strings handled character-wise are modelled as
`String` or `List Char`; byte arrays as `List Nat` with values below 256;
JavaScript 32-bit integer truncation in the base32 coder is modelled with
explicit `% 2^32`.
-/

set_option maxHeartbeats 1600000
set_option maxRecDepth 8000

namespace PassGen

instance {ε α : Type} [DecidableEq ε] [DecidableEq α] : DecidableEq (Except ε α) := fun x y =>
  match x, y with
  | .error a, .error b =>
    match decEq a b with
    | isTrue h => isTrue (h ▸ rfl)
    | isFalse h => isFalse (fun hc => h (by injection hc))
  | .error _, .ok _ => isFalse (fun hc => by injection hc)
  | .ok _, .error _ => isFalse (fun hc => by injection hc)
  | .ok a, .ok b =>
    match decEq a b with
    | isTrue h => isTrue (h ▸ rfl)
    | isFalse h => isFalse (fun hc => h (by injection hc))

/-! ## Character sets (src/js/generator.js, `CHARSETS` and `mapToPassword`) -/

def lowersSet : List Char := "abcdefghijklmnopqrstuvwxyz".toList

def uppersSet : List Char := "ABCDEFGHIJKLMNOPQRSTUVWXYZ".toList

def digitsSet : List Char := "0123456789".toList

def symbolsSet : List Char := "!@#$%^&*()-_=+[]\x7b\x7d;:,.<>?".toList

/-- Reduced symbol set used in compatibility mode (`'!@#$%^&*()-_=+'`). -/
def compatSymbolsSet : List Char := "!@#$%^&*()-_=+".toList

/-- Charset built by `mapToPassword` when `compatMode` is false. -/
def normalCharset : List Char := lowersSet ++ uppersSet ++ digitsSet ++ symbolsSet

/-- Charset built by `mapToPassword` when `compatMode` is true. -/
def compatCharset : List Char := lowersSet ++ uppersSet ++ digitsSet ++ compatSymbolsSet

/-! ## Hex decoding (`PasswordGenerator.hexToBytes`)

The JS code walks the hex string two characters at a time and parses each
pair with `parseInt(_, 16)`.  For strings of hexadecimal digits (the only
inputs that occur: every derived value is a hex digest) this is exactly
pair-wise base-16 decoding, with a trailing single digit parsed on its own;
the embedding below is faithful on that domain, which the theorems guard
with `ValidHex`. -/

def hexDigitVal (c : Char) : Nat :=
  if '0' ≤ c ∧ c ≤ '9' then c.toNat - '0'.toNat
  else if 'a' ≤ c ∧ c ≤ 'f' then c.toNat - 'a'.toNat + 10
  else if 'A' ≤ c ∧ c ≤ 'F' then c.toNat - 'A'.toNat + 10
  else 0

def isHexDigitA (c : Char) : Bool :=
  ('0' ≤ c && c ≤ '9') || ('a' ≤ c && c ≤ 'f') || ('A' ≤ c && c ≤ 'F')

def hexPairsToBytes : List Char → List Nat
  | [] => []
  | [c] => [hexDigitVal c]
  | c1 :: c2 :: rest => (hexDigitVal c1 * 16 + hexDigitVal c2) :: hexPairsToBytes rest

def hexToBytes (hex : String) : List Nat :=
  hexPairsToBytes hex.toList

/-- The hex strings produced by the derivation engine: hexadecimal digits only. -/
def ValidHex (s : String) : Prop :=
  ∀ c ∈ s.toList, isHexDigitA c = true

instance (s : String) : Decidable (ValidHex s) := by
  unfold ValidHex; infer_instance

/-! ## `PasswordGenerator.mapToPassword` (src/js/generator.js lines 282-305) -/

/-- One step of `categories.forEach((set, idx) => ...)`: overwrite position
`bytes[(idx + 4) % bytes.length] % arr.length` with
`set[bytes[idx % bytes.length] % set.length]`. -/
def policyStep (bytes : List Nat) (arr : List Char) (p : Nat × List Char) : List Char :=
  arr.set (bytes.getD ((p.1 + 4) % bytes.length) 0 % arr.length)
    (p.2.getD (bytes.getD (p.1 % bytes.length) 0 % p.2.length) ' ')

def mapToPassword (len : Nat) (policyOn compatMode : Bool) (hex : String) : String :=
  let bytes := hexToBytes hex
  if bytes.length = 0 then "" else
  let charset := if compatMode then compatCharset else normalCharset
  let pwd := (List.range len).map fun i =>
    charset.getD (bytes.getD (i % bytes.length) 0 % charset.length) ' '
  if !policyOn then String.mk pwd else
  let categories := [uppersSet, lowersSet, digitsSet, symbolsSet]
  String.mk (categories.enum.foldl (policyStep bytes) pwd)

/-! ## `PasswordGenerator.isDiverse` (the four character-class regexes) -/

def isUpperA (c : Char) : Bool := 'A' ≤ c && c ≤ 'Z'

def isLowerA (c : Char) : Bool := 'a' ≤ c && c ≤ 'z'

def isDigitA (c : Char) : Bool := '0' ≤ c && c ≤ '9'

def isDiverse (pwd : String) : Bool :=
  pwd.toList.any isUpperA && pwd.toList.any isLowerA && pwd.toList.any isDigitA &&
    pwd.toList.any (fun c => !(isUpperA c || isLowerA c || isDigitA c))

/-! ## Length clamping (the `PasswordGenerator` constructor, lines 151-171)

`Number(length)` an integer → clamp to `[MIN_LENGTH, MAX_LENGTH] = [8, 50]`;
otherwise fall back to `DEFAULT_LENGTH = 16`.  A non-integer request is
modelled as `none`. -/

def effectiveLength : Option Int → Nat
  | some n => (min 50 (max 8 n)).toNat
  | none => 16

/-! ## String utilities shared by the embedding (JS `trim`, `toLowerCase`) -/

def wsChar (c : Char) : Bool := c.isWhitespace

def trimL (l : List Char) : List Char :=
  ((l.dropWhile wsChar).reverse.dropWhile wsChar).reverse

def strTrim (s : String) : String := String.mk (trimL s.toList)

/-! ## `PasswordGenerator.normalizeCounter` (src/js/generator.js lines 205-224)

Trim; empty → `"0"`; a string matching `/^-?\d+$/` is re-rendered through
`BigInt` (canonical decimal form, which strips redundant leading zeros and
normalizes `-0` to `0`); anything else passes through verbatim. -/

def isSignedDecimal (l : List Char) : Bool :=
  match l with
  | '-' :: rest => !rest.isEmpty && rest.all isDigitA
  | _ => !l.isEmpty && l.all isDigitA

def decDigitsVal (l : List Char) : Nat :=
  l.foldl (fun a c => a * 10 + (c.toNat - '0'.toNat)) 0

def intOfDecimal (l : List Char) : Int :=
  match l with
  | '-' :: rest => -(decDigitsVal rest : Int)
  | _ => (decDigitsVal l : Int)

def normalizeCounter (counter : String) : String :=
  let raw := strTrim counter
  if raw = "" then "0"
  else if isSignedDecimal raw.toList then toString (intOfDecimal raw.toList)
  else raw

/-! ## KDF parameters (`sanitizeParameter` / `normalizeParameters`, lines 324-351)

A field of the loosely-typed input `parameters` object is `none` when
`Number.parseInt` yields a non-finite value, and `some n` when it parses to
the integer `n`. -/

structure RawParameters where
  iterations : Option Int
  argonMem : Option Int
  scryptN : Option Int
  balloonSpace : Option Int
  balloonTime : Option Int
  balloonDelta : Option Int
deriving DecidableEq, Repr

structure RecipeParameters where
  iterations : Nat
  argonMem : Nat
  scryptN : Nat
  balloonSpace : Nat
  balloonTime : Nat
  balloonDelta : Nat
deriving DecidableEq, Repr

def sanitizeParameter (value : Option Int) (defaultValue : Nat) (lo hi : Nat) : Nat :=
  match value with
  | none => defaultValue
  | some parsed =>
    let clamped : Int := min (max parsed (lo : Int)) (hi : Int)
    if clamped ≤ 0 then defaultValue else clamped.toNat

def normalizeParameters (p : RawParameters) : RecipeParameters where
  iterations := sanitizeParameter p.iterations 100000 1000 10000000
  argonMem := sanitizeParameter p.argonMem 64 8 4096
  scryptN := sanitizeParameter p.scryptN 16384 1024 1048576
  balloonSpace := sanitizeParameter p.balloonSpace 64 4 4096
  balloonTime := sanitizeParameter p.balloonTime 3 1 24
  balloonDelta := sanitizeParameter p.balloonDelta 3 1 8

/-! ## Recipe signature and Recipe ID (lines 353-371) -/

def jsBool : Bool → String
  | true => "true"
  | false => "false"

structure RecipeDetails where
  algorithm : String
  site : String
  counter : String
  length : Nat
  policyOn : Bool
  compatMode : Bool
  parameters : RawParameters
deriving DecidableEq, Repr

def buildRecipeSignature (d : RecipeDetails) : String :=
  let nc := normalizeCounter d.counter
  let np := normalizeParameters d.parameters
  let parameterSignature :=
    "iterations=" ++ toString np.iterations ++
    ";argonMem=" ++ toString np.argonMem ++
    ";scryptN=" ++ toString np.scryptN ++
    ";balloonSpace=" ++ toString np.balloonSpace ++
    ";balloonTime=" ++ toString np.balloonTime ++
    ";balloonDelta=" ++ toString np.balloonDelta
  d.algorithm ++ "|" ++ d.site ++ "|" ++ nc ++ "|" ++ toString d.length ++ "|" ++
    jsBool d.policyOn ++ "|" ++ jsBool d.compatMode ++ "|" ++ parameterSignature

structure RecipeId where
  signature : String
  digest : String
  short : String
deriving DecidableEq, Repr

/-- `computeRecipeId` on a record argument.  `dg` models
`CryptoHelper.digest(_, 'SHA-256')`. -/
def computeRecipeId (dg : String → String → String) (d : RecipeDetails) : RecipeId :=
  let signature := buildRecipeSignature d
  let digest := dg signature "SHA-256"
  ⟨signature, digest, digest.take 8⟩

/-! ## `PasswordGenerator.normalizeSite` (src/js/generator.js lines 173-199)

The browser `URL` hostname extraction is external; it is modelled by a
parameter `uh : String → Option String` (`none` = the constructor threw). -/

def stripWwwOnce (l : List Char) : List Char :=
  if l.take 4 = "www.".toList then l.drop 4 else l

def countDots (l : List Char) : Nat := l.countP (fun c => c == '.')

/-- The inner `canonicalize` closure: lowercase, trim, strip one leading
`www.`, then strip a trailing `.com` when the string contains exactly one
dot and ends in `.com`. -/
def canonList (l : List Char) : List Char :=
  let normalized := stripWwwOnce (trimL (l.map Char.toLower))
  if countDots normalized = 1 ∧ ".com".toList.isSuffixOf normalized then
    normalized.take (normalized.length - 4)
  else normalized

def canonicalizeSite (s : String) : String := String.mk (canonList s.toList)

/-- Modelled from the spec wording of site normalization (§4.3): lowercases,
trims, strips one leading `www.`, and strips a trailing `.com` exactly when
the resulting hostname contains exactly one dot.  Stated separately from
`canonList` so the two can be compared. -/
def canonListSpec (l : List Char) : List Char :=
  let hostname := stripWwwOnce (trimL (l.map Char.toLower))
  if ".com".toList.isSuffixOf hostname ∧ countDots hostname = 1 then
    hostname.take (hostname.length - 4)
  else hostname

def canonicalizeSpec (s : String) : String := String.mk (canonListSpec s.toList)

def hasSubstr (needle : List Char) : List Char → Bool
  | [] => needle.isEmpty
  | c :: rest => needle.isPrefixOf (c :: rest) || hasSubstr needle rest

/-- The URL string handed to `new URL(...)`: trim, then prefix `https://`
when no `://` occurs in the input. -/
def siteUrlInput (site : String) : String :=
  let input := strTrim site
  if hasSubstr "://".toList input.toList then input else "https://" ++ input

def normalizeSite (uh : String → Option String) (site : String) : String :=
  match uh (siteUrlInput site) with
  | some host => canonicalizeSite host
  | none => canonicalizeSite site

/-! ## `PasswordGenerator.generate` (src/js/generator.js lines 226-280)

The KDF/digest primitives live behind `crypto.subtle` and vendor libraries;
they are modelled as the function bundle `CryptoPrims`. -/

structure GeneratorConfig where
  algorithm : String
  length : Nat
  policyOn : Bool
  compatMode : Bool
  parameters : RecipeParameters
deriving DecidableEq, Repr

structure CryptoPrims where
  pbkdf2 : String → String → Nat → String
  argon2 : String → String → Nat → String
  scryptF : String → String → Nat → String
  blake2b : String → Nat → String
  blake2s : String → Nat → String
  hmacF : String → String → String
  balloonF : String → String → Nat → Nat → Nat → String
  digestF : String → String → String

structure GenerateResult where
  password : String
  normalizedSite : String
  hex : String
  counter : String
deriving DecidableEq, Repr

def generate (P : CryptoPrims) (uh : String → Option String) (cfg : GeneratorConfig)
    (site secret counter : String) : Except String GenerateResult :=
  if hasSubstr "|".toList site.toList || hasSubstr "|".toList secret.toList then
    .error "Inputs may not contain \x22|\x22 character"
  else
    let normalizedSite := normalizeSite uh site
    let normalizedCounter := normalizeCounter counter
    let combined := normalizedSite ++ "|" ++ secret ++ "|" ++ normalizedCounter
    let hex :=
      match cfg.algorithm with
      | "PBKDF2-SHA256" =>
        P.pbkdf2 secret combined
          (if cfg.parameters.iterations = 0 then 100000 else cfg.parameters.iterations)
      | "Argon2id" =>
        P.argon2 secret combined
          (if cfg.parameters.argonMem = 0 then 64 else cfg.parameters.argonMem)
      | "scrypt" =>
        P.scryptF secret combined
          (if cfg.parameters.scryptN = 0 then 16384 else cfg.parameters.scryptN)
      | "BLAKE2b-512" => P.blake2b combined 64
      | "BLAKE2s-256" => P.blake2s combined 32
      | "HMAC-SHA256" => P.hmacF secret combined
      | "Balloon-SHA256" =>
        P.balloonF secret combined cfg.parameters.balloonSpace cfg.parameters.balloonTime
          cfg.parameters.balloonDelta
      | _ => P.digestF combined cfg.algorithm
    .ok ⟨mapToPassword cfg.length cfg.policyOn cfg.compatMode hex, normalizedSite, hex,
      normalizedCounter⟩

/-! ## `CryptoHelper.balloon` (src/unnamed/part_003 lines 91-157)

The underlying digest (`crypto.subtle.digest`) is the parameter `H`, acting
on byte lists (`TextEncoder`-encoded inputs are the byte-list parameters
`passB`/`saltB`).  `toBytes` is the 8-byte big-endian counter encoding;
`integerify` reads the first `min(4, length)` digest bytes big-endian
(digest bytes are below 256, where `(v << 8) | b` is `v * 256 + b`). -/

def be64 (n : Nat) : List Nat :=
  [n / 2 ^ 56 % 256, n / 2 ^ 48 % 256, n / 2 ^ 40 % 256, n / 2 ^ 32 % 256,
   n / 2 ^ 24 % 256, n / 2 ^ 16 % 256, n / 2 ^ 8 % 256, n % 256]

def integerify (bytes : List Nat) : Nat :=
  (bytes.take 4).foldl (fun v b => v * 256 + b) 0

def hexDigitChar (n : Nat) : Char := "0123456789abcdef".toList.getD n 'x'

/-- `bufferToHex`: each byte as two lowercase hex digits (`padStart(2, '0')`). -/
def bytesToHex (bs : List Nat) : String :=
  String.mk (bs.flatMap (fun b => [hexDigitChar (b / 16 % 16), hexDigitChar (b % 16)]))

/-- The seeding/filling loop: block 0 is given, block `m+1` is
`H(be64(m+1) ‖ buffer[m])`. -/
def balloonFillGo (H : List Nat → List Nat) (b0 : List Nat) : Nat → List (List Nat)
  | 0 => [b0]
  | m + 1 =>
    let prev := balloonFillGo H b0 m
    prev ++ [H (be64 (m + 1) ++ prev.getD m [])]

def mixStep (H : List Nat → List Nat) (space t m : Nat) (buf : List (List Nat)) :
    List (List Nat) :=
  buf.set m (H (be64 (t * space + m) ++ buf.getD ((m + space - 1) % space) [] ++ buf.getD m []))

def extraStep (H : List Nat → List Nat) (space t m j : Nat) (buf : List (List Nat)) :
    List (List Nat) :=
  let mixSeed := H (be64 t ++ be64 m ++ be64 j ++ buf.getD m [])
  let otherIndex := integerify mixSeed % space
  buf.set m (H (be64 t ++ be64 m ++ be64 j ++ buf.getD ((m + space - 1) % space) [] ++
    buf.getD otherIndex []))

/-- Ascending `for (let i = 0; i < n; i++)` loop over a buffer-transforming
body. -/
def loopAsc (f : Nat → List (List Nat) → List (List Nat)) : Nat → List (List Nat) → List (List Nat)
  | 0, buf => buf
  | n + 1, buf => f n (loopAsc f n buf)

def balloonRound (H : List Nat → List Nat) (space delta t : Nat) (buf : List (List Nat)) :
    List (List Nat) :=
  let mixed := loopAsc (mixStep H space t) space buf
  loopAsc (fun m b => loopAsc (fun j b2 => extraStep H space t m j b2) delta b) space mixed

def balloonCore (H : List Nat → List Nat) (passB saltB : List Nat)
    (space time delta : Nat) : List Nat :=
  let b0 := H (be64 0 ++ passB ++ saltB)
  let buf := balloonFillGo H b0 (space - 1)
  let finalBuf := loopAsc (balloonRound H space delta) time buf
  finalBuf.getD (space - 1) []

/-- `CryptoHelper.balloon`, including the source's parameter normalization
(`Number.isFinite(x) && x > 0 ? clamp : default`). -/
def balloonHelper (H : List Nat → List Nat) (passB saltB : List Nat)
    (spaceCost timeCost delta : Nat) : String :=
  let normalizedSpace := if 0 < spaceCost then min (max spaceCost 4) 4096 else 64
  let normalizedTime := if 0 < timeCost then min (max timeCost 1) 24 else 3
  let normalizedDelta := if 0 < delta then min (max delta 1) 8 else 3
  bytesToHex (balloonCore H passB saltB normalizedSpace normalizedTime normalizedDelta)

/-- Modelled from the claim/spec wording of the Balloon construction (§4.1):
seed, fill, then for each round a mixing pass followed by `delta`
extra-mixing passes, counters as 8-byte big-endian, result is
`buffer[spaceCost-1]` in hex, cost parameters clamped to `[4,4096]`,
`[1,24]`, `[1,8]`. -/
def balloonSpecCore (H : List Nat → List Nat) (password salt : List Nat)
    (s t d : Nat) : List Nat :=
  let seed := H (be64 0 ++ password ++ salt)
  let filled := (List.range (s - 1)).foldl
    (fun buf m => buf ++ [H (be64 (m + 1) ++ buf.getD m [])]) [seed]
  let result := (List.range t).foldl (fun buf tr =>
    let mixed := (List.range s).foldl (fun b m =>
      b.set m (H (be64 (tr * s + m) ++ b.getD ((m + s - 1) % s) [] ++ b.getD m []))) buf
    (List.range s).foldl (fun b m =>
      (List.range d).foldl (fun b2 j =>
        let seedH := H (be64 tr ++ be64 m ++ be64 j ++ b2.getD m [])
        let otherIndex := integerify seedH % s
        b2.set m (H (be64 tr ++ be64 m ++ be64 j ++ b2.getD ((m + s - 1) % s) [] ++
          b2.getD otherIndex []))) b) mixed) filled
  result.getD (s - 1) []

def balloonSpec (H : List Nat → List Nat) (password salt : List Nat)
    (spaceCost timeCost delta : Nat) : String :=
  let s := min (max spaceCost 4) 4096
  let t := min (max timeCost 1) 24
  let d := min (max delta 1) 8
  bytesToHex (balloonSpecCore H password salt s t d)

/-! ## Registry versioning (src/js/storage.js)

`ensureRecipeIdentifiers` recomputes identifiers through the external
SHA-256 digest and storage, so it is a function parameter `ensureIds`;
`recordRecipeUsage` below is the pure branch logic of lines 167-211 (the
caller has already normalized the looked-up registry entry, lines 157-165). -/

structure RecipeVersion where
  id : String
  shortId : String
  site : String
  algorithm : String
  length : Nat
  counter : String
  policyOn : Bool
  compatMode : Bool
  parameters : RecipeParameters
  date : String
  version : Nat
deriving DecidableEq, Repr

structure RegistryEntry where
  site : String
  versions : List RecipeVersion
deriving DecidableEq, Repr

/-- The record returned by `recordRecipeUsage` plus `recipeWrite`, the value
written to the recipe store (`recipeStore.setItem`). -/
structure UsageResult where
  registryEntry : RegistryEntry
  matchedVersion : Option RecipeVersion
  latestVersion : Option RecipeVersion
  wasExistingRegistry : Bool
  isNewVersion : Bool
  recipeWrite : RecipeVersion
deriving DecidableEq, Repr

def recordRecipeUsage (ensureIds : RecipeVersion → RecipeVersion) (recipe : RecipeVersion)
    (registry : Option RegistryEntry) : UsageResult :=
  let baseEntry := ensureIds recipe
  match registry with
  | none =>
    let versionedEntry := { baseEntry with version := 1 }
    ⟨⟨baseEntry.site, [versionedEntry]⟩, some versionedEntry, some versionedEntry, false, false,
      versionedEntry⟩
  | some reg =>
    match reg.versions.find? (fun v => v.id == baseEntry.id) with
    | some m =>
      ⟨reg, some m, reg.versions.getLast?, true, false, { baseEntry with version := m.version }⟩
    | none =>
      let newVersion := { baseEntry with version := reg.versions.length + 1 }
      ⟨⟨reg.site, reg.versions ++ [newVersion]⟩, none, some newVersion, true, true, newVersion⟩

/-! ## `importRegistrySnapshot` merge path (src/js/storage.js lines 345-378)

One incoming-version merge step; `Array.prototype.sort` (stable since
ES2019, comparator `a.version - b.version`) is modelled by the stable
`List.insertionSort`. -/

def mergeStep (ensureIds : RecipeVersion → RecipeVersion)
    (st : List RecipeVersion × Bool) (version : RecipeVersion) : List RecipeVersion × Bool :=
  if st.1.any (fun ev => ev.id == version.id) then st
  else
    let nextVersionNumber := if 0 < version.version then version.version else st.1.length + 1
    (st.1 ++ [ensureIds { version with version := nextVersionNumber }], true)

def sortByVersion (l : List RecipeVersion) : List RecipeVersion :=
  l.insertionSort (fun a b => a.version ≤ b.version)

def mergeRegistryEntry (ensureIds : RecipeVersion → RecipeVersion) (existing : RegistryEntry)
    (incoming : List RecipeVersion) : RegistryEntry :=
  let st := incoming.foldl (mergeStep ensureIds) (existing.versions, false)
  if st.2 = false then existing
  else
    let sorted := sortByVersion st.1
    let reindexed := sorted.enum.map (fun p => ensureIds { p.2 with version := p.1 + 1 })
    ⟨existing.site, reindexed⟩

/-! ## base32 transport coder (src/js/sync.js lines 684-744)

JavaScript keeps `buffer` as a 32-bit integer (`<<`, `|`, `>>`, `&`), so the
embedding reduces it modulo `2^32` at every accumulation; the extracted
5-bit/8-bit groups only ever read bits below position 32, making this exact. -/

def b32alphabet : List Char := "0123456789ABCDEFGHJKMNPQRSTVWXYZ".toList

def b32char (i : Nat) : Char := b32alphabet.getD i 'X'

/-- The `base32Lookup` table: index of a character in the alphabet. -/
def b32lookup (c : Char) : Option Nat := b32alphabet.findIdx? (fun a => a == c)

def pow32 : Nat := 4294967296

/-- The inner `while (bitsLeft >= 5)` loop of `base32Encode`.  The loop runs
for at most `bitsLeft` iterations (each removes 5 bits), so running the
structural recursion with `fuel = bitsLeft` computes the loop exactly. -/
def b32FlushGo (buffer : Nat) : Nat → Nat → List Char × Nat
  | 0, bits => ([], bits)
  | fuel + 1, bits =>
    if 5 ≤ bits then
      let c := b32char (buffer / 2 ^ (bits - 5) % 32)
      let rest := b32FlushGo buffer fuel (bits - 5)
      (c :: rest.1, rest.2)
    else ([], bits)

def b32FlushAcc (buffer bitsLeft : Nat) : List Char × Nat :=
  b32FlushGo buffer bitsLeft bitsLeft

def b32EncodeGo : List Nat → Nat → Nat → List Char
  | [], buffer, bitsLeft =>
    if 0 < bitsLeft then [b32char (buffer * 2 ^ (5 - bitsLeft) % 32)] else []
  | x :: xs, buffer, bitsLeft =>
    let buffer1 := (buffer * 256 + x) % pow32
    let flushed := b32FlushAcc buffer1 (bitsLeft + 8)
    flushed.1 ++ b32EncodeGo xs buffer1 flushed.2

def base32Encode (bytes : List Nat) : List Char := b32EncodeGo bytes 0 0

def b32DecodeGo : List Char → Nat → Nat → List Nat → Except String (List Nat)
  | [], buffer, bitsLeft, acc =>
    if 0 < bitsLeft ∧ buffer % 2 ^ bitsLeft ≠ 0 then
      .error "Excess padding bits detected in base32 input."
    else .ok acc
  | c :: cs, buffer, bitsLeft, acc =>
    match b32lookup c with
    | none => .error "Invalid base32 character."
    | some val =>
      let buffer1 := (buffer * 32 + val) % pow32
      let bits1 := bitsLeft + 5
      if 8 ≤ bits1 then
        b32DecodeGo cs buffer1 (bits1 - 8) (acc ++ [buffer1 / 2 ^ (bits1 - 8) % 256])
      else b32DecodeGo cs buffer1 bits1 acc

def base32Decode (chars : List Char) : Except String (List Nat) := b32DecodeGo chars 0 0 []

/-! ## Quick transfer (src/js/sync.js lines 388-496)

External collaborators (JSON+UTF-8 codecs, base64 via `btoa`/`atob`,
PBKDF2 key derivation, AES-GCM) are the fields of `QuickHooks`. -/

structure QuickEnvelope where
  v : Nat
  t : String
  iter : Nat
  salt : String
  iv : String
  c : String
deriving DecidableEq, Repr

structure QuickHooks (Snap : Type) where
  serSnap : Snap → List Nat
  parseSnap : List Nat → Option Snap
  serEnv : QuickEnvelope → List Nat
  parseEnv : List Nat → Option QuickEnvelope
  toB64 : List Nat → String
  fromB64 : String → List Nat
  kdf : String → List Nat → Nat → List Nat
  aeadEnc : List Nat → List Nat → List Nat → List Nat
  aeadDec : List Nat → List Nat → List Nat → Option (List Nat)
  legacyDecode : List Char → Option (List Nat)

def QUICK_PREFIX : List Char := "PGENQUICK-".toList

def QUICK_KDF_ITERATIONS : Nat := 200000

def encodeText (bytes : List Nat) : List Char := base32Encode bytes

/-- `base32Pattern = /^[0-9A-Z]+$/`, per character. -/
def b32PatternChar (ch : Char) : Bool := ch.isDigit || ('A' ≤ ch && ch ≤ 'Z')

def decodeText {Snap : Type} (io : QuickHooks Snap) (value : List Char) :
    Except String (List Nat) :=
  let sanitized := value.filter (fun ch => !wsChar ch)
  let candidate := sanitized.map Char.toUpper
  if candidate ≠ [] ∧ candidate.all b32PatternChar then
    match base32Decode candidate with
    | .ok bytes => .ok bytes
    | .error _ =>
      match io.legacyDecode sanitized with
      | some bytes => .ok bytes
      | none => .error "legacy decoding failed"
  else
    match io.legacyDecode sanitized with
    | some bytes => .ok bytes
    | none => .error "legacy decoding failed"

/-- The envelope built inside `encodeQuickPayload` (fresh `salt`/`iv` are the
`crypto.getRandomValues` results, passed as arguments). -/
def quickEnvelopeOf {Snap : Type} (io : QuickHooks Snap) (snapshot : Snap)
    (passphrase : String) (salt iv : List Nat) : QuickEnvelope :=
  let aesKey := io.kdf passphrase salt QUICK_KDF_ITERATIONS
  let plaintext := io.serSnap snapshot
  let ciphertext := io.aeadEnc aesKey iv plaintext
  ⟨2, "quick", QUICK_KDF_ITERATIONS, io.toB64 salt, io.toB64 iv, io.toB64 ciphertext⟩

def encodeQuickPayload {Snap : Type} (io : QuickHooks Snap) (snapshot : Snap)
    (passphrase : String) (salt iv : List Nat) : List Char :=
  QUICK_PREFIX ++ encodeText (io.serEnv (quickEnvelopeOf io snapshot passphrase salt iv))

def decodeQuickPayload {Snap : Type} (io : QuickHooks Snap) (payload : List Char) :
    Except String QuickEnvelope :=
  let cleaned := trimL payload
  if ¬ QUICK_PREFIX.isPrefixOf cleaned then .error "Payload is not a quick transfer bundle."
  else
    let encoded := (cleaned.drop QUICK_PREFIX.length).filter (fun ch => !wsChar ch)
    match decodeText io encoded with
    | .error _ => .error "Payload data is corrupted or incomplete."
    | .ok bytes =>
      match io.parseEnv bytes with
      | none => .error "Failed to parse payload JSON."
      | some envelope =>
        if envelope.v = 2 ∧ envelope.t = "quick" then .ok envelope
        else .error "Payload is not a quick transfer bundle."

def decryptQuickPayload {Snap : Type} (io : QuickHooks Snap) (envelope : QuickEnvelope)
    (passphrase : String) : Except String Snap :=
  if envelope.t ≠ "quick" then .error "Payload is not a quick transfer bundle."
  else if envelope.salt = "" ∨ envelope.iv = "" ∨ envelope.c = "" then
    .error "Payload missing encryption fields."
  else
    let salt := io.fromB64 envelope.salt
    let iv := io.fromB64 envelope.iv
    let ciphertext := io.fromB64 envelope.c
    let iterations := if 0 < envelope.iter then envelope.iter else QUICK_KDF_ITERATIONS
    let aesKey := io.kdf passphrase salt iterations
    match io.aeadDec aesKey iv ciphertext with
    | some plaintext =>
      match io.parseSnap plaintext with
      | some snapshot => .ok snapshot
      | none => .error "Unable to decrypt payload. Double-check the passphrase and try again."
    | none => .error "Unable to decrypt payload. Double-check the passphrase and try again."

def isAlnumA (c : Char) : Bool :=
  c.isDigit || ('A' ≤ c && c ≤ 'Z') || ('a' ≤ c && c ≤ 'z')

/-- `value.replace(/[^0-9A-Z]/gi, '').toUpperCase()`. -/
def compactQuickPassphrase (s : String) : String :=
  String.mk ((s.toList.filter isAlnumA).map Char.toUpper)

def ensureQuickPassphrase (s : String) : Except String String :=
  let compact := compactQuickPassphrase s
  if compact.length < 16 then
    .error "Passphrase must include at least 16 characters (four groups)."
  else .ok compact

/-! ## Paired transfer import (src/js/sync.js lines 1110-1206 and 1357-1371) -/

structure ReceiveState where
  sessionId : String
  secretBytes : Option (List Nat)
deriving DecidableEq, Repr

/-- The decoded `data` envelope fields that `handleImport` reads.  `none`
models an absent field (JS `undefined`); truthiness also rejects `""`. -/
structure DataEnvelope where
  t : String
  session : String
  iv : Option String
  c : Option String
  salt : Option String
  auth : Option String
  h : Option String
deriving DecidableEq, Repr

def truthy : Option String → Bool
  | none => false
  | some s => s ≠ ""

def compareBytes (a b : List Nat) : Bool :=
  a.length == b.length && (List.zip a b).all (fun p => p.1 == p.2)

structure PairedHooks (Snap : Type) where
  fromB64 : String → List Nat
  deriveAesKey : List Nat → List Nat → List Nat
  derivePairingCode : List Nat → String → String
  aeadDec : List Nat → List Nat → List Nat → Option (List Nat)
  sha256 : List Nat → List Nat
  parseSnap : List Nat → Option Snap

def decryptSnapshot {Snap : Type} (io : PairedHooks Snap) (iv ciphertext : List Nat)
    (digest : Option (List Nat)) (aesKey : List Nat) : Except String Snap :=
  match io.aeadDec aesKey iv ciphertext with
  | none => .error "Unable to decrypt payload."
  | some plaintext =>
    match digest with
    | some d =>
      if compareBytes d (io.sha256 plaintext) = false then .error "Integrity check failed."
      else
        match io.parseSnap plaintext with
        | some snap => .ok snap
        | none => .error "Unable to decrypt payload."
    | none =>
      match io.parseSnap plaintext with
      | some snap => .ok snap
      | none => .error "Unable to decrypt payload."

/-- `/^\d{8}$/`. -/
def isDigit8 (s : String) : Bool := s.length == 8 && s.toList.all (fun c => c.isDigit)

/-- `confirmCodeInput.value.replace(/\s+/g, '')`. -/
def stripSpaces (s : String) : String := String.mk (s.toList.filter (fun ch => !wsChar ch))

def handleImport {Snap : Type} (io : PairedHooks Snap) (st : ReceiveState)
    (envelope : DataEnvelope) (typedCodeRaw : String) : Except String Snap :=
  if st.sessionId = "" ∨ st.secretBytes = none then
    .error "Pairing not ready. Process the offer first."
  else if envelope.t ≠ "data" then .error "Payload is not the final data bundle."
  else if envelope.session ≠ st.sessionId then
    .error "Session mismatch. Ensure you are importing the matching payload."
  else if ¬ (truthy envelope.iv = true ∧ truthy envelope.c = true) then
    .error "Payload missing encryption fields."
  else if truthy envelope.salt = false then .error "Payload missing key derivation salt."
  else if stripSpaces typedCodeRaw = "" then
    .error "Enter the pairing code you heard from the sender."
  else if isDigit8 (stripSpaces typedCodeRaw) = false then
    .error "Pairing codes are 8 digits. Double-check and try again."
  else if stripSpaces typedCodeRaw ≠
      io.derivePairingCode (st.secretBytes.getD []) st.sessionId then
    .error "The entered pairing code does not match this session."
  else if envelope.auth ≠ some (io.derivePairingCode (st.secretBytes.getD []) st.sessionId) then
    .error "Received payload failed the pairing code check. Rejecting payload."
  else
    decryptSnapshot io (io.fromB64 (envelope.iv.getD "")) (io.fromB64 (envelope.c.getD ""))
      (if truthy envelope.h = true then some (io.fromB64 (envelope.h.getD "")) else none)
      (io.deriveAesKey (st.secretBytes.getD []) (io.fromB64 (envelope.salt.getD "")))

/-! ## Concrete data used by witnesses and counterexamples -/

def hexZeros : String :=
  "0000000000000000000000000000000000000000000000000000000000000000"

def hexC2W : String :=
  "0000000000010203000000000000000000000000000000000000000000000000"

def hexC9 : String :=
  "0000000e00000000000000000000000000000000000000000000000000000000"

def defaultParamsW : RecipeParameters := ⟨100000, 64, 16384, 64, 3, 3⟩

def rawParamsW : RawParameters := ⟨none, none, none, none, none, none⟩

def mkVersionW (idv : String) (ver : Nat) : RecipeVersion :=
  ⟨idv, idv, "s", "PBKDF2-SHA256", 16, "0", true, false, defaultParamsW, "2024-01-01", ver⟩

def primsW : CryptoPrims :=
  ⟨fun _ _ _ => "00ff", fun _ _ _ => "00ff", fun _ _ _ => "00ff", fun _ _ => "00ff",
    fun _ _ => "00ff", fun _ _ => "00ff", fun _ _ _ _ _ => "00ff", fun _ _ => "00ff"⟩

def cfgW : GeneratorConfig := ⟨"PBKDF2-SHA256", 16, true, false, defaultParamsW⟩

def detailsW : RecipeDetails := ⟨"PBKDF2-SHA256", "facebook", "0", 16, true, false, rawParamsW⟩

def dgW : String → String → String := fun s _ => s

def uhW : String → Option String := fun s =>
  if s = "https://FACEBOOK.com" then some "facebook.com"
  else if s = "https://www.facebook.com/" then some "www.facebook.com"
  else if s = "https://facebook" then some "facebook"
  else none

def hashW : List Nat → List Nat := fun l => [l.length % 256, l.foldl (· + ·) 0 % 256, 3, 5]

/-- Toy serialization of a string field: length, then character codes. -/
def wSerStr (s : String) : List Nat := s.length % 256 :: s.toList.map (fun c => c.toNat % 256)

def wReadStr (l : List Nat) : String × List Nat :=
  match l with
  | [] => ("", [])
  | n :: rest => (String.mk ((rest.take n).map Char.ofNat), rest.drop n)

def wSerEnv (e : QuickEnvelope) : List Nat :=
  e.v % 256 :: e.iter / 16777216 % 256 :: e.iter / 65536 % 256 :: e.iter / 256 % 256 ::
    e.iter % 256 :: (wSerStr e.t ++ wSerStr e.salt ++ wSerStr e.iv ++ wSerStr e.c)

def wParseEnv (l : List Nat) : Option QuickEnvelope :=
  match l with
  | v :: i1 :: i2 :: i3 :: i4 :: rest =>
    let t := wReadStr rest
    let salt := wReadStr t.2
    let iv := wReadStr salt.2
    let c := wReadStr iv.2
    some ⟨v, t.1, ((i1 * 256 + i2) * 256 + i3) * 256 + i4, salt.1, iv.1, c.1⟩
  | _ => none

def wToB64 (bs : List Nat) : String :=
  String.mk (bs.flatMap (fun b => [Char.ofNat (48 + b / 16 % 16), Char.ofNat (48 + b % 16)]))

def wFromB64Go : List Char → List Nat
  | c1 :: c2 :: rest => ((c1.toNat - 48) * 16 + (c2.toNat - 48)) :: wFromB64Go rest
  | _ => []

def wFromB64 (s : String) : List Nat := wFromB64Go s.toList

def wKdf (p : String) (_salt : List Nat) (_iter : Nat) : List Nat := p.toList.map Char.toNat

def wAeadEnc (k _iv p : List Nat) : List Nat := k.length :: (k ++ p)

def wAeadDec (k _iv c : List Nat) : Option (List Nat) :=
  if c.take (k.length + 1) = k.length :: k then some (c.drop (k.length + 1)) else none

def wQuickHooks : QuickHooks (List Nat) :=
  ⟨fun s => s, some, wSerEnv, wParseEnv, wToB64, wFromB64, wKdf, wAeadEnc, wAeadDec,
    fun _ => none⟩

def wPass : String := "ABCDEFGHJKMNPQRS"

def wPass2 : String := "ABCDEFGHJKMNPQRT"

def wPairedHooks : PairedHooks (List Nat) :=
  ⟨fun s => [s.length], fun a b => a ++ b, fun _ _ => "12345678", fun _ _ _ => some [3],
    fun _ => [], some⟩

def wDataEnv : DataEnvelope :=
  ⟨"data", "sess", some "IV", some "CT", some "SA", some "12345678", none⟩

def wReceiveState : ReceiveState := ⟨"sess", some [7]⟩

/-! ## Lemmas about the password mapper -/

theorem length_foldl_policyStep (bytes : List Nat) (ps : List (Nat × List Char))
    (arr : List Char) : (ps.foldl (policyStep bytes) arr).length = arr.length := by
  induction ps generalizing arr with
  | nil => rfl
  | cons p ps ih => simp [List.foldl, ih, policyStep, List.length_set]

theorem hexPairsToBytes_ne_nil (l : List Char) (h : l ≠ []) : hexPairsToBytes l ≠ [] := by
  match l with
  | [c] => simp [hexPairsToBytes]
  | c1 :: c2 :: rest => simp [hexPairsToBytes]

theorem mapToPassword_length (L : Nat) (pol com : Bool) (hex : String) (hne : hex ≠ "") :
    (mapToPassword L pol com hex).length = L := by
  have hl : hex.toList ≠ [] := by
    intro h
    apply hne
    cases hex with
    | mk data => simp [String.toList] at h; simp [h]
  have hb : hexToBytes hex ≠ [] := hexPairsToBytes_ne_nil _ hl
  unfold mapToPassword
  rw [if_neg (by simpa [List.length_eq_zero] using hb)]
  cases pol with
  | false => simp
  | true => simp [length_foldl_policyStep]

theorem getD_set_self (l : List Char) (i : Nat) (c d : Char) (h : i < l.length) :
    (l.set i c).getD i d = c := by
  rw [List.getD_eq_getElem _ _ (by simpa using h)]
  exact List.getElem_set_self _

theorem getD_set_ne (l : List Char) (i j : Nat) (c d : Char) (h : i ≠ j) (hj : j < l.length) :
    (l.set i c).getD j d = l.getD j d := by
  rw [List.getD_eq_getElem _ _ (by simpa using hj), List.getD_eq_getElem _ _ hj]
  exact List.getElem_set_ne h _

theorem getD_mem_of_lt (l : List Char) (i : Nat) (d : Char) (h : i < l.length) :
    l.getD i d ∈ l := by
  rw [List.getD_eq_getElem _ _ h]
  exact List.getElem_mem h

theorem uppers_getD_upper : ∀ i < 26, isUpperA (uppersSet.getD i ' ') = true := by decide

theorem lowers_getD_lower : ∀ i < 26, isLowerA (lowersSet.getD i ' ') = true := by decide

theorem digits_getD_digit : ∀ i < 10, isDigitA (digitsSet.getD i ' ') = true := by decide

theorem symbols_getD_symbol : ∀ i < 25,
    (!(isUpperA (symbolsSet.getD i ' ') || isLowerA (symbolsSet.getD i ' ')
      || isDigitA (symbolsSet.getD i ' '))) = true := by decide

/-! ## Claim C1 — determinism of `generate` and `computeRecipeId` -/

/-- C1: for every fixed input tuple (site, secret, counter, algorithm, length,
policyOn, compatMode, parameters), two calls of `generate` return
byte-identical results, and two calls of `computeRecipeId` over the same
recipe fields return the identical Recipe ID digest and shortId.  The
embedding makes both functions of exactly these inputs (plus the fixed
crypto primitives `P`/`uh`/`dg`), so two calls whose inputs agree field by
field agree. -/
theorem C1_generate_deterministic (P : CryptoPrims) (uh : String → Option String)
    (dg : String → String → String) (cfg₁ cfg₂ : GeneratorConfig)
    (site₁ site₂ secret₁ secret₂ counter₁ counter₂ : String) (d₁ d₂ : RecipeDetails)
    (halg : cfg₁.algorithm = cfg₂.algorithm) (hlen : cfg₁.length = cfg₂.length)
    (hpol : cfg₁.policyOn = cfg₂.policyOn) (hcom : cfg₁.compatMode = cfg₂.compatMode)
    (hpar : cfg₁.parameters = cfg₂.parameters)
    (hsite : site₁ = site₂) (hsec : secret₁ = secret₂) (hcnt : counter₁ = counter₂)
    (hd : d₁.algorithm = d₂.algorithm ∧ d₁.site = d₂.site ∧ d₁.counter = d₂.counter ∧
      d₁.length = d₂.length ∧ d₁.policyOn = d₂.policyOn ∧ d₁.compatMode = d₂.compatMode ∧
      d₁.parameters = d₂.parameters) :
    generate P uh cfg₁ site₁ secret₁ counter₁ = generate P uh cfg₂ site₂ secret₂ counter₂ ∧
      computeRecipeId dg d₁ = computeRecipeId dg d₂ := by
  obtain ⟨ha, hs, hc, hl, hp, hcm, hpm⟩ := hd
  cases cfg₁; cases cfg₂; cases d₁; cases d₂
  simp_all

theorem C1_witness :
    generate primsW uhW cfgW "facebook" "hunter2" "1" =
        generate primsW uhW cfgW "facebook" "hunter2" "1" ∧
      computeRecipeId dgW detailsW = computeRecipeId dgW detailsW :=
  C1_generate_deterministic primsW uhW dgW cfgW cfgW "facebook" "facebook" "hunter2" "hunter2"
    "1" "1" detailsW detailsW rfl rfl rfl rfl rfl rfl rfl rfl
    ⟨rfl, rfl, rfl, rfl, rfl, rfl, rfl⟩

/-! ## Claim C2 — diversity under the policy -/

/-- C2: counterexample to the claim as stated.  For the all-zero derived hex
string (a valid 32-byte hex value) with `policyOn = true` and clamped length
16 ≥ 8, all four class-overwrite positions coincide, each later overwrite
erases the previous class, and the resulting password has no uppercase
letter and no digit, so `isDiverse` is false. -/
theorem C2_policy_overwrite_collision_cex :
    ValidHex hexZeros ∧ hexZeros ≠ "" ∧ (8 : Nat) ≤ 16 ∧
      isDiverse (mapToPassword 16 true false hexZeros) = false := by decide

/-- C2 (amended): with `policyOn = true` and clamped length ≥ 8, the
generated password satisfies `isDiverse` provided the four class-overwrite
positions `bytes[(idx+4) % n] % length` (idx = 0..3) are pairwise distinct;
when positions collide a later class overwrite can erase an earlier class,
so diversity is not guaranteed for every derived hex string. -/
theorem C2_diverse_of_distinct_positions (L : Nat) (compat : Bool) (hex : String)
    (hval : ValidHex hex) (hne : hex ≠ "") (hL : 8 ≤ L)
    (hdist : ∀ i < 4, ∀ j < 4, i ≠ j →
      (hexToBytes hex).getD ((i + 4) % (hexToBytes hex).length) 0 % L ≠
      (hexToBytes hex).getD ((j + 4) % (hexToBytes hex).length) 0 % L) :
    isDiverse (mapToPassword L true compat hex) = true := by
  have hl : hex.toList ≠ [] := by
    intro h; apply hne
    cases hex with
    | mk data => simp [String.toList] at h; simp [h]
  have hb : hexToBytes hex ≠ [] := hexPairsToBytes_ne_nil _ hl
  set bytes := hexToBytes hex with hbytes
  have hn : bytes.length ≠ 0 := by simpa [List.length_eq_zero] using hb
  set p : Nat → Nat := fun i => bytes.getD ((i + 4) % bytes.length) 0 % L with hp
  set q : Nat → Nat := fun i => bytes.getD (i % bytes.length) 0 with hq
  have h01 : p 0 ≠ p 1 := hdist 0 (by omega) 1 (by omega) (by omega)
  have h02 : p 0 ≠ p 2 := hdist 0 (by omega) 2 (by omega) (by omega)
  have h03 : p 0 ≠ p 3 := hdist 0 (by omega) 3 (by omega) (by omega)
  have h12 : p 1 ≠ p 2 := hdist 1 (by omega) 2 (by omega) (by omega)
  have h13 : p 1 ≠ p 3 := hdist 1 (by omega) 3 (by omega) (by omega)
  have h23 : p 2 ≠ p 3 := hdist 2 (by omega) 3 (by omega) (by omega)
  have hLpos : 0 < L := by omega
  set charset := if compat then compatCharset else normalCharset with hcs
  set pwd0 : List Char := (List.range L).map
    (fun i => charset.getD (bytes.getD (i % bytes.length) 0 % charset.length) ' ') with hpwd0
  have hlen0 : pwd0.length = L := by simp [hpwd0]
  have hstep : mapToPassword L true compat hex = String.mk
      ((((pwd0.set (p 0) (uppersSet.getD (q 0 % uppersSet.length) ' ')).set
          (p 1) (lowersSet.getD (q 1 % lowersSet.length) ' ')).set
          (p 2) (digitsSet.getD (q 2 % digitsSet.length) ' ')).set
          (p 3) (symbolsSet.getD (q 3 % symbolsSet.length) ' ')) := by
    unfold mapToPassword
    rw [if_neg hn]
    simp only [Bool.not_true, if_neg]
    simp only [List.enum, List.enumFrom, List.foldl, policyStep]
    rw [← hbytes, ← hcs, ← hpwd0]
    simp only [List.length_set, hlen0, ← hp, ← hq]
    rfl
  set c0 := uppersSet.getD (q 0 % uppersSet.length) ' ' with hc0
  set c1 := lowersSet.getD (q 1 % lowersSet.length) ' ' with hc1
  set c2 := digitsSet.getD (q 2 % digitsSet.length) ' ' with hc2
  set c3 := symbolsSet.getD (q 3 % symbolsSet.length) ' ' with hc3
  set l1 : List Char := pwd0.set (p 0) c0 with hl1
  set l2 : List Char := l1.set (p 1) c1 with hl2
  set l3 : List Char := l2.set (p 2) c2 with hl3
  set l4 : List Char := l3.set (p 3) c3 with hl4
  have hlen1 : l1.length = L := by simp [hl1, hlen0]
  have hlen2 : l2.length = L := by simp [hl2, hlen1]
  have hlen3 : l3.length = L := by simp [hl3, hlen2]
  have hlen4 : l4.length = L := by simp [hl4, hlen3]
  have hpi : ∀ i, p i < L := fun i => Nat.mod_lt _ hLpos
  have e0 : l4.getD (p 0) ' ' = c0 := by
    rw [hl4, getD_set_ne _ _ _ _ _ (Ne.symm h03) (by rw [hlen3]; exact hpi _)]
    rw [hl3, getD_set_ne _ _ _ _ _ (Ne.symm h02) (by rw [hlen2]; exact hpi _)]
    rw [hl2, getD_set_ne _ _ _ _ _ (Ne.symm h01) (by rw [hlen1]; exact hpi _)]
    rw [hl1, getD_set_self _ _ _ _ (by rw [hlen0]; exact hpi _)]
  have e1 : l4.getD (p 1) ' ' = c1 := by
    rw [hl4, getD_set_ne _ _ _ _ _ (Ne.symm h13) (by rw [hlen3]; exact hpi _)]
    rw [hl3, getD_set_ne _ _ _ _ _ (Ne.symm h12) (by rw [hlen2]; exact hpi _)]
    rw [hl2, getD_set_self _ _ _ _ (by rw [hlen1]; exact hpi _)]
  have e2 : l4.getD (p 2) ' ' = c2 := by
    rw [hl4, getD_set_ne _ _ _ _ _ (Ne.symm h23) (by rw [hlen3]; exact hpi _)]
    rw [hl3, getD_set_self _ _ _ _ (by rw [hlen2]; exact hpi _)]
  have e3 : l4.getD (p 3) ' ' = c3 := by
    rw [hl4, getD_set_self _ _ _ _ (by rw [hlen3]; exact hpi _)]
  have hup : isUpperA c0 = true := by
    have : q 0 % uppersSet.length < 26 := Nat.mod_lt _ (by decide)
    exact uppers_getD_upper _ this
  have hlo : isLowerA c1 = true := by
    have : q 1 % lowersSet.length < 26 := Nat.mod_lt _ (by decide)
    exact lowers_getD_lower _ this
  have hdi : isDigitA c2 = true := by
    have : q 2 % digitsSet.length < 10 := Nat.mod_lt _ (by decide)
    exact digits_getD_digit _ this
  have hsy : (!(isUpperA c3 || isLowerA c3 || isDigitA c3)) = true := by
    have : q 3 % symbolsSet.length < 25 := Nat.mod_lt _ (by decide)
    exact symbols_getD_symbol _ this
  rw [hstep]
  unfold isDiverse
  have htl : (String.mk l4).toList = l4 := rfl
  rw [htl]
  simp only [Bool.and_eq_true, List.any_eq_true]
  refine ⟨⟨⟨?_, ?_⟩, ?_⟩, ?_⟩
  · exact ⟨l4.getD (p 0) ' ', getD_mem_of_lt l4 (p 0) ' ' (by rw [hlen4]; exact hpi _),
      by rw [e0]; exact hup⟩
  · exact ⟨l4.getD (p 1) ' ', getD_mem_of_lt l4 (p 1) ' ' (by rw [hlen4]; exact hpi _),
      by rw [e1]; exact hlo⟩
  · exact ⟨l4.getD (p 2) ' ', getD_mem_of_lt l4 (p 2) ' ' (by rw [hlen4]; exact hpi _),
      by rw [e2]; exact hdi⟩
  · exact ⟨l4.getD (p 3) ' ', getD_mem_of_lt l4 (p 3) ' ' (by rw [hlen4]; exact hpi _),
      by rw [e3]; exact hsy⟩

theorem C2_witness :
    isDiverse (mapToPassword 16 true false hexC2W) = true :=
  C2_diverse_of_distinct_positions 16 false hexC2W (by decide) (by decide) (by decide)
    (by decide)

/-! ## Claim C4 — length clamping and output length -/

/-- C4: the effective length is the requested value clamped to [8, 50] when
the request is an integer and the fixed default 16 otherwise
(`effectiveLength`, embedded from the constructor), so it always lies in
[8, 50]; and for every non-empty derived hex string the generated password's
character count equals that effective length. -/
theorem C4_password_length_matches_clamped (req : Option Int) (pol com : Bool)
    (hex : String) (hval : ValidHex hex) (hne : hex ≠ "") :
    8 ≤ effectiveLength req ∧ effectiveLength req ≤ 50 ∧
      (mapToPassword (effectiveLength req) pol com hex).length = effectiveLength req := by
  refine ⟨?_, ?_, mapToPassword_length _ _ _ _ hne⟩
  · cases req with
    | none => decide
    | some n => simp only [effectiveLength]; omega
  · cases req with
    | none => decide
    | some n => simp only [effectiveLength]; omega

theorem C4_witness :
    8 ≤ effectiveLength (some 60) ∧ effectiveLength (some 60) ≤ 50 ∧
      (mapToPassword (effectiveLength (some 60)) true false "0a").length =
        effectiveLength (some 60) :=
  C4_password_length_matches_clamped (some 60) true false "0a" (by decide) (by decide)

/-! ## Claim C5 — site normalization -/

/-- C5: `normalizeSite` maps `"FACEBOOK.com"`, `"https://www.facebook.com/"`,
and `"facebook"` all to the canonical site `"facebook"` (given the browser
URL parser's hostnames for the three inputs); in general the canonicalizer
lowercases, trims, strips one leading `www.`, and strips a trailing `.com`
exactly when the resulting hostname contains exactly one dot
(`canonicalizeSite = canonicalizeSpec`), and on URL-parse failure
`normalizeSite` applies the same canonicalization to the raw input. -/
theorem C5_normalizeSite_facebook_equiv (uh : String → Option String)
    (h1 : uh "https://FACEBOOK.com" = some "facebook.com")
    (h2 : uh "https://www.facebook.com/" = some "www.facebook.com")
    (h3 : uh "https://facebook" = some "facebook") :
    normalizeSite uh "FACEBOOK.com" = "facebook" ∧
    normalizeSite uh "https://www.facebook.com/" = "facebook" ∧
    normalizeSite uh "facebook" = "facebook" ∧
    (∀ s, canonicalizeSite s = canonicalizeSpec s) ∧
    (∀ s, uh (siteUrlInput s) = none → normalizeSite uh s = canonicalizeSite s) := by
  have e1 : siteUrlInput "FACEBOOK.com" = "https://FACEBOOK.com" := by decide
  have e2 : siteUrlInput "https://www.facebook.com/" = "https://www.facebook.com/" := by decide
  have e3 : siteUrlInput "facebook" = "https://facebook" := by decide
  refine ⟨?_, ?_, ?_, ?_, ?_⟩
  · simp only [normalizeSite, e1, h1]
    decide
  · simp only [normalizeSite, e2, h2]
    decide
  · simp only [normalizeSite, e3, h3]
    decide
  · intro s
    unfold canonicalizeSite canonicalizeSpec canonList canonListSpec
    congr 1
    exact if_congr (Iff.intro (fun h => ⟨h.2, h.1⟩) (fun h => ⟨h.2, h.1⟩)) rfl rfl
  · intro s h
    simp only [normalizeSite, h]

theorem C5_witness :
    normalizeSite uhW "FACEBOOK.com" = "facebook" ∧
      normalizeSite uhW "https://www.facebook.com/" = "facebook" ∧
      normalizeSite uhW "facebook" = "facebook" :=
  have h := C5_normalizeSite_facebook_equiv uhW (by decide) (by decide) (by decide)
  ⟨h.1, h.2.1, h.2.2.1⟩

/-! ## Claim C9 — the compatibility charset -/

/-- C9: counterexample to the claim as stated.  With `compatMode = true` and
`policyOn = true`, the symbol-class overwrite always draws from the full
symbol set `!@#$%^&*()-_=+[]{};:,.<>?`, so for a derived hex whose byte 3 is
0x0e the password contains `[`, which is outside the reduced compatibility
charset. -/
theorem C9_compat_policy_symbol_cex :
    ValidHex hexC9 ∧
      (mapToPassword 16 true true hexC9).toList.any
        (fun c => !(compatCharset.contains c)) = true := by decide

/-- C9 (amended): when `compatMode = true` and `policyOn = false`, every
character of the password returned by `mapToPassword` belongs to the reduced
compatibility charset (lowercase, uppercase, digits, and `!@#$%^&*()-_=+`);
with `policyOn = true` the diversity overwrite can insert full-set symbols
(the UI enforces mutual exclusivity of the two toggles). -/
theorem C9_compat_charset_policy_off (L : Nat) (hex : String) (hval : ValidHex hex) :
    ∀ c ∈ (mapToPassword L false true hex).toList, c ∈ compatCharset := by
  intro c hc
  unfold mapToPassword at hc
  by_cases hz : (hexToBytes hex).length = 0
  · rw [if_pos hz] at hc
    simp [String.toList] at hc
  · rw [if_neg hz] at hc
    simp only [Bool.not_false, if_true] at hc
    have hc2 : c ∈ (List.range L).map (fun i => compatCharset.getD
        ((hexToBytes hex).getD (i % (hexToBytes hex).length) 0 % compatCharset.length) ' ') :=
      hc
    obtain ⟨i, _, hCi⟩ := List.mem_map.mp hc2
    rw [← hCi]
    exact getD_mem_of_lt _ _ _ (Nat.mod_lt _ (by decide))

theorem C9_witness :
    (mapToPassword 16 false true "0a1b").toList.getD 0 ' ' ∈ compatCharset :=
  C9_compat_charset_policy_off 16 "0a1b" (by decide)
    ((mapToPassword 16 false true "0a1b").toList.getD 0 ' ') (by decide)

/-! ## Claim C6 — registry versioning cases -/

/-- C6: `recordRecipeUsage` behaves by cases.  No registry entry for the
site → a new entry whose versions list is exactly `[recipe with version 1]`,
reported with `wasExistingRegistry = false`.  An existing version with the
identical id → the version record is rewritten in place (`recipeWrite`)
without touching the registry list, reporting that `matchedVersion`,
`latestVersion` = last element of the existing list, `isNewVersion = false`.
No version matches the id → the recipe is appended with
`version = len(versions) + 1`, reported with `isNewVersion = true` and
`matchedVersion = none`, and every existing version is still present.  The
hypothesis `hfix` says the recipe's identifiers are already canonical
(`ensureRecipeIdentifiers` fixes it). -/
theorem C6_recordRecipeUsage_cases (ensureIds : RecipeVersion → RecipeVersion)
    (recipe : RecipeVersion) (registry : Option RegistryEntry)
    (hfix : ensureIds recipe = recipe) :
    (registry = none →
      recordRecipeUsage ensureIds recipe registry =
        ⟨⟨recipe.site, [{ recipe with version := 1 }]⟩, some { recipe with version := 1 },
          some { recipe with version := 1 }, false, false, { recipe with version := 1 }⟩) ∧
    (∀ reg m, registry = some reg →
      reg.versions.find? (fun v => v.id == recipe.id) = some m →
      recordRecipeUsage ensureIds recipe registry =
        ⟨reg, some m, reg.versions.getLast?, true, false,
          { recipe with version := m.version }⟩) ∧
    (∀ reg, registry = some reg →
      reg.versions.find? (fun v => v.id == recipe.id) = none →
      recordRecipeUsage ensureIds recipe registry =
        ⟨⟨reg.site, reg.versions ++ [{ recipe with version := reg.versions.length + 1 }]⟩,
          none, some { recipe with version := reg.versions.length + 1 }, true, true,
          { recipe with version := reg.versions.length + 1 }⟩ ∧
        ∀ v ∈ reg.versions,
          v ∈ (recordRecipeUsage ensureIds recipe registry).registryEntry.versions) := by
  refine ⟨?_, ?_, ?_⟩
  · intro h
    subst h
    simp [recordRecipeUsage, hfix]
  · intro reg m h hfind
    subst h
    simp [recordRecipeUsage, hfix, hfind]
  · intro reg h hfind
    subst h
    refine ⟨by simp [recordRecipeUsage, hfix, hfind], ?_⟩
    intro v hv
    simp [recordRecipeUsage, hfix, hfind]
    left
    exact hv

theorem C6_witness :
    (recordRecipeUsage (fun v => v) (mkVersionW "aa" 0) (some ⟨"s", [mkVersionW "aa" 1]⟩) =
      ⟨⟨"s", [mkVersionW "aa" 1]⟩, some (mkVersionW "aa" 1), some (mkVersionW "aa" 1), true,
        false, mkVersionW "aa" 1⟩) ∧
    (recordRecipeUsage (fun v => v) (mkVersionW "aa" 0) none =
      ⟨⟨"s", [mkVersionW "aa" 1]⟩, some (mkVersionW "aa" 1), some (mkVersionW "aa" 1), false,
        false, mkVersionW "aa" 1⟩) := by
  have h := C6_recordRecipeUsage_cases (fun v => v) (mkVersionW "aa" 0)
    (some ⟨"s", [mkVersionW "aa" 1]⟩) rfl
  have h2 := C6_recordRecipeUsage_cases (fun v => v) (mkVersionW "aa" 0) none rfl
  refine ⟨?_, ?_⟩
  · have := h.2.1 ⟨"s", [mkVersionW "aa" 1]⟩ (mkVersionW "aa" 1) rfl (by decide)
    rw [this]
    decide
  · have := h2.1 rfl
    rw [this]
    decide

/-! ## Claim C7 — the snapshot import merge -/

/-- C7: counterexample to the claim as stated.  The local entry holds
versions `a` (version 1) and `b` (version 2); the imported snapshot carries
one version `c` with the conflicting version number 1.  The merge keeps
every pre-existing version id, but the stable sort by version number places
`c` between `a` and `b`, and reindexing renumbers the pre-existing `b` from
2 to 3 — so the import does renumber existing local versions. -/
theorem C7_import_renumbers_cex :
    ((mergeRegistryEntry (fun v => v) ⟨"s", [mkVersionW "a" 1, mkVersionW "b" 2]⟩
          [mkVersionW "c" 1]).versions.map (fun v => (v.id, v.version)) =
        [("a", 1), ("c", 2), ("b", 3)]) ∧
      (⟨"s", [mkVersionW "a" 1, mkVersionW "b" 2]⟩ : RegistryEntry).versions.map
          (fun v => (v.id, v.version)) = [("a", 1), ("b", 2)] := by decide

/-- C7 (amended): `importRegistrySnapshot` merges additively into an
existing registry entry in the sense that every version present in the local
entry before the import is still present afterwards (same id, no deletion);
however, an imported version carrying a conflicting version number may be
sorted between existing versions and the whole list reindexed, so
pre-existing versions can be renumbered (and interleaved with imported
ones).  The hypothesis `hid` states that identifier normalization
(`ensureRecipeIdentifiers`) preserves ids, which holds for the already
canonical (64-char) ids of a normalized local entry. -/
theorem C7_merge_preserves_versions (ensureIds : RecipeVersion → RecipeVersion)
    (hid : ∀ v, (ensureIds v).id = v.id)
    (existing : RegistryEntry) (incoming : List RecipeVersion) :
    ∀ v ∈ existing.versions,
      ∃ w ∈ (mergeRegistryEntry ensureIds existing incoming).versions, w.id = v.id := by
  have hfold : ∀ (inc : List RecipeVersion) (st : List RecipeVersion × Bool)
      (v : RecipeVersion), v ∈ st.1 → v ∈ (inc.foldl (mergeStep ensureIds) st).1 := by
    intro inc
    induction inc with
    | nil => intro st v hv; exact hv
    | cons x xs ih =>
      intro st v hv
      apply ih
      unfold mergeStep
      by_cases h : st.1.any (fun ev => ev.id == x.id)
      · simpa [h] using hv
      · simp [h]
        left
        exact hv
  intro v hv
  unfold mergeRegistryEntry
  by_cases hch : (incoming.foldl (mergeStep ensureIds) (existing.versions, false)).2 = false
  · rw [if_pos hch]
    exact ⟨v, hv, rfl⟩
  · rw [if_neg hch]
    have hmem : v ∈ (incoming.foldl (mergeStep ensureIds) (existing.versions, false)).1 :=
      hfold incoming (existing.versions, false) v hv
    have hsorted : v ∈ sortByVersion (incoming.foldl (mergeStep ensureIds)
        (existing.versions, false)).1 :=
      ((List.perm_insertionSort _ _).mem_iff).mpr hmem
    obtain ⟨i, hi⟩ := List.mem_iff_getElem?.mp hsorted
    refine ⟨ensureIds { v with version := i + 1 }, ?_, by rw [hid]⟩
    exact List.mem_map.mpr ⟨(i, v), List.mk_mem_enum_iff_getElem?.mpr hi, rfl⟩

theorem C7_witness :
    ∃ w ∈ (mergeRegistryEntry (fun x => x) ⟨"s", [mkVersionW "a" 1, mkVersionW "b" 2]⟩
      [mkVersionW "c" 1]).versions, w.id = (mkVersionW "a" 1).id :=
  C7_merge_preserves_versions (fun x => x) (fun _ => rfl)
    ⟨"s", [mkVersionW "a" 1, mkVersionW "b" 2]⟩ [mkVersionW "c" 1]
    (mkVersionW "a" 1) (by decide)

/-! ## Claim C3 — the Balloon construction -/

theorem loopAsc_eq_foldl_range (f : Nat → List (List Nat) → List (List Nat)) :
    ∀ (n : Nat) (buf : List (List Nat)),
      loopAsc f n buf = (List.range n).foldl (fun acc m => f m acc) buf := by
  intro n
  induction n with
  | zero => intro buf; rfl
  | succ k ih =>
    intro buf
    rw [List.range_succ, List.foldl_append]
    simp only [loopAsc, List.foldl_cons, List.foldl_nil, ih]

theorem balloonFillGo_eq_foldl_range (H : List Nat → List Nat) (b0 : List Nat) :
    ∀ k, balloonFillGo H b0 k =
      (List.range k).foldl (fun buf m => buf ++ [H (be64 (m + 1) ++ buf.getD m [])]) [b0] := by
  intro k
  induction k with
  | zero => rfl
  | succ m ih =>
    rw [List.range_succ, List.foldl_append]
    simp only [balloonFillGo, List.foldl_cons, List.foldl_nil, ih]

theorem balloonCore_eq_spec (H : List Nat → List Nat) (passB saltB : List Nat)
    (s t d : Nat) :
    balloonCore H passB saltB s t d = balloonSpecCore H passB saltB s t d := by
  simp only [balloonCore, balloonSpecCore, balloonRound, mixStep, extraStep,
    balloonFillGo_eq_foldl_range, loopAsc_eq_foldl_range]

/-- C3: `CryptoHelper.balloon` computes exactly the Balloon construction of
the claim — seed `buffer[0] = H(be64 0 ‖ password ‖ salt)`, fill
`buffer[m] = H(be64 m ‖ buffer[m-1])`, then for each round a mixing pass
`buffer[m] = H(be64(t·space+m) ‖ buffer[(m-1) mod space] ‖ buffer[m])`
followed by `delta` extra-mixing passes via `integerify` of the first 4
digest bytes, with 8-byte big-endian counters, result `buffer[space-1]` in
hex, and the cost parameters clamped to [4,4096], [1,24], [1,8] (for
positive inputs, which is the domain `normalizeParameters` supplies; the
source substitutes fixed defaults for non-positive or non-finite inputs). -/
theorem C3_balloon_matches_spec (H : List Nat → List Nat) (passB saltB : List Nat)
    (spaceCost timeCost delta : Nat)
    (hs : 0 < spaceCost) (ht : 0 < timeCost) (hd : 0 < delta) :
    balloonHelper H passB saltB spaceCost timeCost delta =
      balloonSpec H passB saltB spaceCost timeCost delta := by
  simp only [balloonHelper, balloonSpec, if_pos hs, if_pos ht, if_pos hd, balloonCore_eq_spec]

theorem C3_witness :
    (0 : Nat) < 4 ∧
      balloonHelper hashW [1, 2] [3] 4 1 1 = balloonSpec hashW [1, 2] [3] 4 1 1 :=
  ⟨by decide, C3_balloon_matches_spec hashW [1, 2] [3] 4 1 1 (by decide) (by decide)
    (by decide)⟩

/-! ## base32 round-trip (decode ∘ encode = id) -/

theorem b32lookup_b32char : ∀ i < 32, b32lookup (b32char i) = some i := by decide

theorem b32FlushGo_fuel (buf : Nat) :
    ∀ fuel1 fuel2 bits, bits ≤ fuel1 → bits ≤ fuel2 →
      b32FlushGo buf fuel1 bits = b32FlushGo buf fuel2 bits := by
  intro fuel1
  induction fuel1 with
  | zero =>
    intro fuel2 bits h1 h2
    interval_cases bits
    cases fuel2 with
    | zero => rfl
    | succ f => simp [b32FlushGo]
  | succ f1 ih =>
    intro fuel2 bits h1 h2
    cases fuel2 with
    | zero =>
      interval_cases bits
      simp [b32FlushGo]
    | succ f2 =>
      by_cases h : 5 ≤ bits
      · simp only [b32FlushGo, if_pos h]
        rw [ih f2 (bits - 5) (by omega) (by omega)]
      · simp only [b32FlushGo, if_neg h]

theorem b32FlushAcc_step (buf n : Nat) (h : 5 ≤ n) :
    b32FlushAcc buf n =
      (b32char (buf / 2 ^ (n - 5) % 32) :: (b32FlushAcc buf (n - 5)).1,
        (b32FlushAcc buf (n - 5)).2) := by
  unfold b32FlushAcc
  cases n with
  | zero => omega
  | succ m =>
    simp only [b32FlushGo, if_pos h]
    rw [b32FlushGo_fuel buf m (m + 1 - 5) (m + 1 - 5) (by omega) (by omega)]

theorem b32FlushAcc_stop (buf n : Nat) (h : n < 5) : b32FlushAcc buf n = ([], n) := by
  unfold b32FlushAcc
  cases n with
  | zero => rfl
  | succ m => simp only [b32FlushGo, if_neg (by omega : ¬ 5 ≤ m + 1)]

theorem ok_cons_eq (out t : List Nat) (a b : Nat) (h : a = b) :
    (Except.ok (out ++ a :: t) : Except String (List Nat)) = .ok (out ++ b :: t) := by rw [h]

theorem ok_cons2_eq (out t : List Nat) (a b c d : Nat) (h1 : a = c) (h2 : b = d) :
    (Except.ok (out ++ a :: b :: t) : Except String (List Nat)) = .ok (out ++ c :: d :: t) := by
  rw [h1, h2]

theorem b32_roundtrip_aux :
    ∀ (rest : List Nat), ∀ (bitsE bufE bufD : Nat) (out : List Nat),
      (∀ b ∈ rest, b < 256) → bitsE < 5 → bufE < pow32 → bufD < pow32 →
      b32DecodeGo (b32EncodeGo rest bufE bitsE) bufD ((8 - bitsE) % 8) out =
        .ok (out ++ (if bitsE = 0 then [] else
          [bufD % 2 ^ ((8 - bitsE) % 8) * 2 ^ bitsE + bufE % 2 ^ bitsE]) ++ rest) := by
  intro rest
  induction rest with
  | nil =>
    intro bitsE bufE bufD out hb hE hbE hbD
    simp only [pow32] at hbE hbD
    interval_cases bitsE
    · simp [b32EncodeGo, b32DecodeGo]
    · have hlk := b32lookup_b32char (bufE * 2 ^ (5 - 1) % 32) (Nat.mod_lt _ (by norm_num))
      simp only [b32EncodeGo, b32DecodeGo, pow32, hlk]
      norm_num
      rw [if_pos (by omega)]
      apply ok_cons_eq
      omega
    · have hlk := b32lookup_b32char (bufE * 2 ^ (5 - 2) % 32) (Nat.mod_lt _ (by norm_num))
      simp only [b32EncodeGo, b32DecodeGo, pow32, hlk]
      norm_num
      rw [if_pos (by omega)]
      apply ok_cons_eq
      omega
    · have hlk := b32lookup_b32char (bufE * 2 ^ (5 - 3) % 32) (Nat.mod_lt _ (by norm_num))
      simp only [b32EncodeGo, b32DecodeGo, pow32, hlk]
      norm_num
      rw [if_pos (by omega)]
      apply ok_cons_eq
      omega
    · have hlk := b32lookup_b32char (bufE * 2 ^ (5 - 4) % 32) (Nat.mod_lt _ (by norm_num))
      simp only [b32EncodeGo, b32DecodeGo, pow32, hlk]
      norm_num
      rw [if_neg (by omega)]
      apply ok_cons_eq
      omega
  | cons x xs ih =>
    intro bitsE bufE bufD out hb hE hbE hbD
    have hx : x < 256 := hb x (by simp)
    have hxs : ∀ b ∈ xs, b < 256 := fun b hbm => hb b (by simp [hbm])
    simp only [pow32] at hbE hbD
    have hbuf1 : (bufE * 256 + x) % 4294967296 < 4294967296 := Nat.mod_lt _ (by norm_num)
    interval_cases bitsE
    · -- bitsE = 0 : flush emits one char, decoder keeps 5 bits
      simp only [b32EncodeGo, pow32]
      norm_num
      rw [b32FlushAcc_step _ 8 (by norm_num)]
      norm_num
      rw [b32FlushAcc_stop _ 3 (by norm_num)]
      have hlk := b32lookup_b32char ((bufE * 256 + x) % 4294967296 / 8 % 32)
        (Nat.mod_lt _ (by norm_num))
      simp only [List.cons_append, List.nil_append, b32DecodeGo, pow32, hlk]
      norm_num
      have hrec := ih 3 ((bufE * 256 + x) % 4294967296)
        ((bufD * 32 + (bufE * 256 + x) % 4294967296 / 8 % 32) % 4294967296) out hxs
        (by norm_num) (by exact hbuf1) (Nat.mod_lt _ (by norm_num))
      simp only [pow32] at hrec
      norm_num at hrec
      rw [hrec]
      apply ok_cons_eq
      omega
    · -- bitsE = 1 : flush emits one char, decoder emits one byte
      simp only [b32EncodeGo, pow32]
      norm_num
      rw [b32FlushAcc_step _ 9 (by norm_num)]
      norm_num
      rw [b32FlushAcc_stop _ 4 (by norm_num)]
      have hlk := b32lookup_b32char ((bufE * 256 + x) % 4294967296 / 16 % 32)
        (Nat.mod_lt _ (by norm_num))
      simp only [List.cons_append, List.nil_append, b32DecodeGo, pow32, hlk]
      norm_num
      have hrec := ih 4 ((bufE * 256 + x) % 4294967296)
        ((bufD * 32 + (bufE * 256 + x) % 4294967296 / 16 % 32) % 4294967296)
        (out ++ [(bufD * 32 + (bufE * 256 + x) % 4294967296 / 16 % 32) % 4294967296 / 16 % 256])
        hxs (by norm_num) (by exact hbuf1) (Nat.mod_lt _ (by norm_num))
      simp only [pow32] at hrec
      norm_num at hrec
      rw [hrec]
      apply ok_cons2_eq
      · omega
      · omega
    · -- bitsE = 2 : flush emits two chars, decoder emits two bytes
      simp only [b32EncodeGo, pow32]
      norm_num
      rw [b32FlushAcc_step _ 10 (by norm_num)]
      norm_num
      rw [b32FlushAcc_step _ 5 (by norm_num)]
      norm_num
      rw [b32FlushAcc_stop _ 0 (by norm_num)]
      have hlk1 := b32lookup_b32char ((bufE * 256 + x) % 4294967296 / 32 % 32)
        (Nat.mod_lt _ (by norm_num))
      have hlk2 := b32lookup_b32char ((bufE * 256 + x) % 4294967296 % 32)
        (Nat.mod_lt _ (by norm_num))
      simp only [List.cons_append, List.nil_append, b32DecodeGo, pow32, hlk1, hlk2]
      norm_num
      have hlk2A := b32lookup_b32char ((bufE * 256 + x) % 32) (Nat.mod_lt _ (by norm_num))
      simp only [hlk2A]
      have hrec := ih 0 ((bufE * 256 + x) % 4294967296)
        (((bufD * 32 + (bufE * 256 + x) % 4294967296 / 32 % 32) % 4294967296 * 32 +
            (bufE * 256 + x) % 32) % 4294967296)
        (out ++ [(bufD * 32 + (bufE * 256 + x) % 4294967296 / 32 % 32) % 4294967296 / 8 % 256,
          ((bufD * 32 + (bufE * 256 + x) % 4294967296 / 32 % 32) % 4294967296 * 32 +
            (bufE * 256 + x) % 32) % 256])
        hxs (by norm_num) (by exact hbuf1) (Nat.mod_lt _ (by norm_num))
      simp only [pow32] at hrec
      norm_num at hrec
      rw [hrec]
      apply ok_cons2_eq
      · omega
      · omega
    · -- bitsE = 3 : flush emits two chars, decoder emits one byte
      simp only [b32EncodeGo, pow32]
      norm_num
      rw [b32FlushAcc_step _ 11 (by norm_num)]
      norm_num
      rw [b32FlushAcc_step _ 6 (by norm_num)]
      norm_num
      rw [b32FlushAcc_stop _ 1 (by norm_num)]
      have hlk1 := b32lookup_b32char ((bufE * 256 + x) % 4294967296 / 64 % 32)
        (Nat.mod_lt _ (by norm_num))
      have hlk2 := b32lookup_b32char ((bufE * 256 + x) % 4294967296 / 2 % 32)
        (Nat.mod_lt _ (by norm_num))
      simp only [List.cons_append, List.nil_append, b32DecodeGo, pow32, hlk1, hlk2]
      norm_num
      have hrec := ih 1 ((bufE * 256 + x) % 4294967296)
        (((bufD * 32 + (bufE * 256 + x) % 4294967296 / 64 % 32) % 4294967296 * 32 +
            (bufE * 256 + x) % 4294967296 / 2 % 32) % 4294967296)
        (out ++ [(bufD * 32 + (bufE * 256 + x) % 4294967296 / 64 % 32) % 4294967296 / 4 % 256])
        hxs (by norm_num) (by exact hbuf1) (Nat.mod_lt _ (by norm_num))
      simp only [pow32] at hrec
      norm_num at hrec
      rw [hrec]
      apply ok_cons2_eq
      · omega
      · omega
    · -- bitsE = 4 : flush emits two chars, decoder emits one byte
      simp only [b32EncodeGo, pow32]
      norm_num
      rw [b32FlushAcc_step _ 12 (by norm_num)]
      norm_num
      rw [b32FlushAcc_step _ 7 (by norm_num)]
      norm_num
      rw [b32FlushAcc_stop _ 2 (by norm_num)]
      have hlk1 := b32lookup_b32char ((bufE * 256 + x) % 4294967296 / 128 % 32)
        (Nat.mod_lt _ (by norm_num))
      have hlk2 := b32lookup_b32char ((bufE * 256 + x) % 4294967296 / 4 % 32)
        (Nat.mod_lt _ (by norm_num))
      simp only [List.cons_append, List.nil_append, b32DecodeGo, pow32, hlk1, hlk2]
      norm_num
      have hrec := ih 2 ((bufE * 256 + x) % 4294967296)
        (((bufD * 32 + (bufE * 256 + x) % 4294967296 / 128 % 32) % 4294967296 * 32 +
            (bufE * 256 + x) % 4294967296 / 4 % 32) % 4294967296)
        (out ++ [(bufD * 32 + (bufE * 256 + x) % 4294967296 / 128 % 32) % 4294967296 / 2 % 256])
        hxs (by norm_num) (by exact hbuf1) (Nat.mod_lt _ (by norm_num))
      simp only [pow32] at hrec
      norm_num at hrec
      rw [hrec]
      apply ok_cons2_eq
      · omega
      · omega

theorem base32_roundtrip (l : List Nat) (h : ∀ b ∈ l, b < 256) :
    base32Decode (base32Encode l) = .ok l := by
  have haux := b32_roundtrip_aux l 0 0 0 [] h (by norm_num)
    (by unfold pow32; norm_num) (by unfold pow32; norm_num)
  simpa using haux

theorem b32char_mem : ∀ i < 32, b32char i ∈ b32alphabet := by decide

theorem b32FlushGo_chars (buf : Nat) :
    ∀ fuel bits, ∀ c ∈ (b32FlushGo buf fuel bits).1, c ∈ b32alphabet := by
  intro fuel
  induction fuel with
  | zero => intro bits c hc; simp [b32FlushGo] at hc
  | succ f ih =>
    intro bits c hc
    by_cases h : 5 ≤ bits
    · simp only [b32FlushGo, if_pos h, List.mem_cons] at hc
      rcases hc with hc | hc
      · rw [hc]; exact b32char_mem _ (Nat.mod_lt _ (by norm_num))
      · exact ih _ c hc
    · simp [b32FlushGo, if_neg h] at hc

theorem b32EncodeGo_chars :
    ∀ (l : List Nat) (buf bits : Nat), ∀ c ∈ b32EncodeGo l buf bits, c ∈ b32alphabet := by
  intro l
  induction l with
  | nil =>
    intro buf bits c hc
    by_cases h : 0 < bits
    · simp only [b32EncodeGo, if_pos h, List.mem_singleton] at hc
      rw [hc]; exact b32char_mem _ (Nat.mod_lt _ (by norm_num))
    · simp [b32EncodeGo, if_neg h] at hc
  | cons x xs ih =>
    intro buf bits c hc
    simp only [b32EncodeGo, List.mem_append] at hc
    rcases hc with hc | hc
    · exact b32FlushGo_chars _ _ _ c hc
    · exact ih _ _ c hc

theorem b32alphabet_props : ∀ c ∈ b32alphabet,
    ((c.isDigit || ('A' ≤ c && c ≤ 'Z')) = true ∧ Char.toUpper c = c ∧
      c.isWhitespace = false) := by decide

theorem dropWhile_eq_self_of_not (p : Char → Bool) (l : List Char)
    (h : ∀ c ∈ l, p c = false) : l.dropWhile p = l := by
  cases l with
  | nil => rfl
  | cons c rest => simp [List.dropWhile, h c (by simp)]

theorem trimL_eq_self (l : List Char) (h : ∀ c ∈ l, wsChar c = false) : trimL l = l := by
  unfold trimL
  rw [dropWhile_eq_self_of_not _ _ h]
  rw [dropWhile_eq_self_of_not _ _ (fun c hc => h c (List.mem_reverse.mp hc))]
  exact List.reverse_reverse l

theorem b32EncodeGo_cons_ne_nil (x : Nat) (xs : List Nat) (buf bits : Nat) :
    b32EncodeGo (x :: xs) buf bits ≠ [] := by
  simp only [b32EncodeGo]
  rw [b32FlushAcc_step _ (bits + 8) (by omega)]
  simp

theorem quickPrefix_not_ws : ∀ c ∈ QUICK_PREFIX, wsChar c = false := by decide

/-- C8: for every registry snapshot and every valid passphrase of at least
16 significant characters, decoding and then decrypting the quick-transfer
payload produced by `encodeQuickPayload` with the same passphrase yields a
snapshot equal to the original; decrypting with any different passphrase
yields the integrity error telling the user to check the passphrase, never
corrupted plaintext.  The JSON/UTF-8 and base64 collaborators are assumed to
round-trip on the values involved, and PBKDF2/AES-GCM are idealized: the
KDF is collision-free in the passphrase, and AEAD decryption inverts
encryption under the right key and fails under any other key. -/
theorem C8_quick_roundtrip {Snap : Type} (io : QuickHooks Snap)
    (snapshot : Snap) (passphrase passphrase2 : String) (salt iv : List Nat)
    (hpass : 16 ≤ (compactQuickPassphrase passphrase).length)
    (hp2 : passphrase2 ≠ passphrase)
    (hSnapRT : io.parseSnap (io.serSnap snapshot) = some snapshot)
    (hEnvRT : io.parseEnv (io.serEnv (quickEnvelopeOf io snapshot passphrase salt iv)) =
      some (quickEnvelopeOf io snapshot passphrase salt iv))
    (hEnvBytes : ∀ b ∈ io.serEnv (quickEnvelopeOf io snapshot passphrase salt iv), b < 256)
    (hEnvNe : io.serEnv (quickEnvelopeOf io snapshot passphrase salt iv) ≠ [])
    (hB64salt : io.fromB64 (io.toB64 salt) = salt)
    (hB64iv : io.fromB64 (io.toB64 iv) = iv)
    (hB64ct : io.fromB64 (io.toB64 (io.aeadEnc (io.kdf passphrase salt QUICK_KDF_ITERATIONS) iv
        (io.serSnap snapshot))) =
      io.aeadEnc (io.kdf passphrase salt QUICK_KDF_ITERATIONS) iv (io.serSnap snapshot))
    (hSaltNe : io.toB64 salt ≠ "")
    (hIvNe : io.toB64 iv ≠ "")
    (hCtNe : io.toB64 (io.aeadEnc (io.kdf passphrase salt QUICK_KDF_ITERATIONS) iv
      (io.serSnap snapshot)) ≠ "")
    (hAeadRT : ∀ k i p, io.aeadDec k i (io.aeadEnc k i p) = some p)
    (hAeadAuth : ∀ k1 k2 i p, k2 ≠ k1 → io.aeadDec k2 i (io.aeadEnc k1 i p) = none)
    (hKdfInj : ∀ p1 p2 s i, p1 ≠ p2 → io.kdf p1 s i ≠ io.kdf p2 s i) :
    decodeQuickPayload io (encodeQuickPayload io snapshot passphrase salt iv) =
      .ok (quickEnvelopeOf io snapshot passphrase salt iv) ∧
    decryptQuickPayload io (quickEnvelopeOf io snapshot passphrase salt iv) passphrase =
      .ok snapshot ∧
    decryptQuickPayload io (quickEnvelopeOf io snapshot passphrase salt iv) passphrase2 =
      .error "Unable to decrypt payload. Double-check the passphrase and try again." := by
  set env0 := quickEnvelopeOf io snapshot passphrase salt iv with henv0
  set bytes := io.serEnv env0 with hbytes
  set chars := base32Encode bytes with hchars
  have hmem : ∀ c ∈ chars, c ∈ b32alphabet := fun c hc => b32EncodeGo_chars bytes 0 0 c hc
  have hnws : ∀ c ∈ chars, wsChar c = false := fun c hc => by
    have := (b32alphabet_props c (hmem c hc)).2.2
    simpa [wsChar] using this
  have hupper : ∀ c ∈ chars, Char.toUpper c = c := fun c hc =>
    (b32alphabet_props c (hmem c hc)).2.1
  have hpat : ∀ c ∈ chars, b32PatternChar c = true := fun c hc => by
    have := (b32alphabet_props c (hmem c hc)).1
    simpa [b32PatternChar] using this
  have hcne : chars ≠ [] := by
    rw [hchars]
    cases hb : bytes with
    | nil => exact absurd rfl (hb ▸ hEnvNe)
    | cons x xs => exact b32EncodeGo_cons_ne_nil x xs 0 0
  refine ⟨?_, ?_, ?_⟩
  · -- decode (encode …) = ok env0
    simp only [encodeQuickPayload, decodeQuickPayload]
    rw [← hbytes]
    have hall : ∀ c ∈ QUICK_PREFIX ++ encodeText bytes, wsChar c = false := by
      intro c hc
      rcases List.mem_append.mp hc with hc | hc
      · exact quickPrefix_not_ws c hc
      · exact hnws c hc
    rw [trimL_eq_self _ hall]
    rw [if_neg (by
      simp only [not_not]
      exact List.isPrefixOf_iff_prefix.mpr (List.prefix_append _ _))]
    rw [List.drop_left]
    rw [List.filter_eq_self.mpr (fun c hc => by simp [hnws c hc])]
    simp only [decodeText]
    have hfold : encodeText bytes = chars := by rw [hchars]; rfl
    rw [List.filter_eq_self.mpr (fun c hc => by
      rw [hfold] at hc
      simp [hnws c hc])]
    rw [hfold]
    rw [List.map_congr_left (fun c hc => hupper c hc), List.map_id']
    rw [if_pos ⟨hcne, List.all_eq_true.mpr hpat⟩]
    rw [hchars, base32_roundtrip bytes hEnvBytes]
    simp only [hEnvRT]
    rw [if_pos ⟨rfl, rfl⟩]
  · -- decrypt with the right passphrase
    simp only [decryptQuickPayload]
    rw [if_neg (by simp [henv0, quickEnvelopeOf])]
    rw [if_neg (by
      simp only [henv0, quickEnvelopeOf]
      push_neg
      exact ⟨hSaltNe, hIvNe, hCtNe⟩)]
    simp only [henv0, quickEnvelopeOf]
    rw [hB64salt, hB64iv, hB64ct]
    rw [if_pos (show 0 < QUICK_KDF_ITERATIONS by norm_num [QUICK_KDF_ITERATIONS])]
    simp only [hAeadRT, hSnapRT]
  · -- decrypt with a different passphrase fails with the passphrase error
    simp only [decryptQuickPayload]
    rw [if_neg (by simp [henv0, quickEnvelopeOf])]
    rw [if_neg (by
      simp only [henv0, quickEnvelopeOf]
      push_neg
      exact ⟨hSaltNe, hIvNe, hCtNe⟩)]
    simp only [henv0, quickEnvelopeOf]
    rw [hB64salt, hB64iv, hB64ct]
    rw [if_pos (show 0 < QUICK_KDF_ITERATIONS by norm_num [QUICK_KDF_ITERATIONS])]
    simp only [hAeadAuth _ _ _ _ (hKdfInj passphrase2 passphrase salt QUICK_KDF_ITERATIONS hp2)]

/-- C10: in the paired-transfer import, the decrypted-plaintext digest
comparison is performed only when the data envelope carries an `h` field:
every data envelope lacking `h` that passes the session-ID, pairing-code,
auth, and AEAD-decryption checks imports the snapshot with the digest
cross-check silently skipped — the result does not depend on the SHA-256
function at all (it is quantified over `g`). -/
theorem C10_import_skips_digest_without_h {Snap : Type} (io : PairedHooks Snap)
    (st : ReceiveState) (envelope : DataEnvelope) (typedCodeRaw : String)
    (secret plain : List Nat) (snap : Snap)
    (hsess : st.sessionId ≠ "") (hsec : st.secretBytes = some secret)
    (ht : envelope.t = "data") (hmatch : envelope.session = st.sessionId)
    (hiv : truthy envelope.iv = true) (hc : truthy envelope.c = true)
    (hsalt : truthy envelope.salt = true)
    (htyped : stripSpaces typedCodeRaw = io.derivePairingCode secret st.sessionId)
    (hcode8 : isDigit8 (io.derivePairingCode secret st.sessionId) = true)
    (hauth : envelope.auth = some (io.derivePairingCode secret st.sessionId))
    (hh : envelope.h = none)
    (hdec : io.aeadDec (io.deriveAesKey secret (io.fromB64 (envelope.salt.getD "")))
      (io.fromB64 (envelope.iv.getD "")) (io.fromB64 (envelope.c.getD "")) = some plain)
    (hparse : io.parseSnap plain = some snap) :
    ∀ g : List Nat → List Nat,
      handleImport { io with sha256 := g } st envelope typedCodeRaw = .ok snap := by
  intro g
  unfold handleImport
  rw [if_neg (by
    push_neg
    exact ⟨hsess, by rw [hsec]; exact fun hcc => by injection hcc⟩)]
  rw [if_neg (by rw [ht]; simp)]
  rw [if_neg (by rw [hmatch]; simp)]
  rw [if_neg (by rw [hiv, hc]; simp)]
  rw [if_neg (by rw [hsalt]; simp)]
  rw [hsec]
  simp only [Option.getD_some]
  rw [if_neg (by
    rw [htyped]
    intro hemp
    rw [hemp] at hcode8
    simp [isDigit8] at hcode8)]
  rw [if_neg (by rw [htyped, hcode8]; simp)]
  rw [if_neg (by rw [htyped]; simp)]
  rw [if_neg (by rw [hauth]; simp)]
  unfold decryptSnapshot
  rw [hh]
  simp only [truthy, Bool.false_eq_true, if_neg, if_false]
  rw [hdec]
  simp only [hparse]

theorem wAeadRT : ∀ k i p, wAeadDec k i (wAeadEnc k i p) = some p := by
  intro k i p
  unfold wAeadDec wAeadEnc
  rw [if_pos]
  · rw [List.drop_succ_cons, List.drop_left]
  · rw [List.take_succ_cons, List.take_left]

theorem wAeadAuth : ∀ k1 k2 i p, k2 ≠ k1 → wAeadDec k2 i (wAeadEnc k1 i p) = none := by
  intro k1 k2 i p hne
  unfold wAeadDec wAeadEnc
  rw [if_neg]
  intro hc
  rw [List.take_succ_cons] at hc
  injection hc with h1 h2
  apply hne
  rw [← h2, ← h1, List.take_left]

theorem wKdfInj : ∀ p1 p2 s i, p1 ≠ p2 → wKdf p1 s i ≠ wKdf p2 s i := by
  intro p1 p2 s i hne heq
  apply hne
  unfold wKdf at heq
  have hinj : Function.Injective Char.toNat := by
    intro a b h
    exact Char.ext (UInt32.ext h)
  have hl : p1.toList = p2.toList := List.map_injective_iff.mpr hinj heq
  cases p1
  cases p2
  simp only [String.toList] at hl
  simp [hl]

theorem C8_witness :
    decodeQuickPayload wQuickHooks (encodeQuickPayload wQuickHooks [5] wPass [1] [2]) =
      .ok (quickEnvelopeOf wQuickHooks [5] wPass [1] [2]) ∧
    decryptQuickPayload wQuickHooks (quickEnvelopeOf wQuickHooks [5] wPass [1] [2]) wPass =
      .ok [5] ∧
    decryptQuickPayload wQuickHooks (quickEnvelopeOf wQuickHooks [5] wPass [1] [2]) wPass2 =
      .error "Unable to decrypt payload. Double-check the passphrase and try again." :=
  C8_quick_roundtrip wQuickHooks [5] wPass wPass2 [1] [2]
    (by decide) (by decide) rfl (by decide) (by decide) (by decide)
    (by decide) (by decide) (by decide) (by decide) (by decide) (by decide)
    wAeadRT wAeadAuth wKdfInj

theorem C10_witness :
    handleImport { wPairedHooks with sha256 := hashW } wReceiveState wDataEnv "1234 5678" =
      .ok [3] :=
  C10_import_skips_digest_without_h wPairedHooks wReceiveState wDataEnv "1234 5678"
    [7] [3] [3]
    (by decide) (by decide) (by decide) (by decide) (by decide) (by decide) (by decide)
    (by decide) (by decide) (by decide) (by decide) (by decide) (by decide) hashW

end PassGen
